import Mathlib

/-!
Verification of the auth-service session/token lifecycle core.

The Go code is shallowly embedded: machine state (Postgres `users` and
`sessions` tables) becomes an explicit `DB` structure threaded through the
operations, wall-clock time becomes an explicit `now : Nat` parameter, and
UUID / random-JTI generation becomes fresh-counter allocation out of the
state.  Fallible Go functions return `Except AppError`.
-/

deriving instance DecidableEq for Except

namespace Auth

/-- Error kinds of pkg/errors (the `ErrorCode` string constants). -/
inductive ErrCode where
  | unauthorized
  | invalidCredentials
  | tokenExpired
  | tokenInvalid
  | tokenMissing
  | validationFailed
  | invalidInput
  | notFound
  | alreadyExists
  | internal
  | serviceUnavailable
  | rateLimitExceeded
deriving DecidableEq, Repr

/-- pkg/errors `AppError` (the HTTP status and wrapped Go error are dropped;
the kind, message and detail map are kept). -/
structure AppError where
  code : ErrCode
  message : String
  details : List (String × String)
deriving DecidableEq, Repr

def AppError.unauthorized (message : String) : AppError :=
  ⟨.unauthorized, message, []⟩

def AppError.invalidCredentials : AppError :=
  ⟨.invalidCredentials, "Invalid username or password", []⟩

def AppError.tokenExpired : AppError :=
  ⟨.tokenExpired, "Token has expired", []⟩

def AppError.tokenInvalid : AppError :=
  ⟨.tokenInvalid, "Token is invalid", []⟩

def AppError.notFound (resource : String) : AppError :=
  ⟨.notFound, resource ++ " not found", []⟩

def AppError.alreadyExists (resource : String) : AppError :=
  ⟨.alreadyExists, resource ++ " already exists", []⟩

def AppError.internal (message : String) : AppError :=
  ⟨.internal, message, []⟩

def AppError.withDetails (e : AppError) (d : List (String × String)) : AppError :=
  { e with details := d }

/-- internal/config `JWTConfig`.  Durations are modelled in the same abstract
time unit as `now`.  `Validate` in config.go enforces, at startup, that the two
secrets are nonempty, ≥ 32 bytes, and distinct; theorems that need the
distinctness carry it as a hypothesis. -/
structure JWTConfig where
  accessTokenSecret : String
  refreshTokenSecret : String
  accessTokenExpiry : Nat
  refreshTokenExpiry : Nat
  issuer : String
deriving DecidableEq, Repr

/-- Decoded content of a well-formed JWT as produced by `generateToken`
(service/jwt.go `customClaims`).  `signedWith` records which secret produced
the signature and `hmacAlg` whether the header names the configured HMAC
algorithm; both stand in for the raw signature bytes. -/
structure Token where
  userId : Nat
  username : String
  email : String
  type : String
  issuer : String
  exp : Nat
  iat : Nat
  nbf : Nat
  jti : Nat
  signedWith : String
  hmacAlg : Bool
deriving DecidableEq, Repr

/-- A token string on the wire: either it parses to a well-formed `Token` or
it is garbage that the JWT library rejects as malformed. -/
inductive TokenStr where
  | wellFormed (t : Token)
  | malformed (raw : String)
deriving DecidableEq, Repr

/-- internal/domain `Claims` (the decoded payload returned to callers). -/
structure Claims where
  userId : Nat
  username : String
  email : String
  type : String
deriving DecidableEq, Repr

/-- internal/domain `TokenPair`. -/
structure TokenPair where
  accessToken : TokenStr
  refreshToken : TokenStr
deriving DecidableEq, Repr

/-- A row of the `users` table (internal/domain `User`). -/
structure UserRow where
  userId : Nat
  username : String
  email : String
  passwordHash : String
  fullName : String
  isActive : Bool
  createdAt : Nat
  updatedAt : Nat
deriving DecidableEq, Repr

/-- A row of the `sessions` table (internal/domain `Session`). -/
structure SessionRow where
  sessionId : Nat
  userId : Nat
  refreshToken : TokenStr
  deviceInfo : String
  ipAddress : String
  userAgent : String
  lastActivityAt : Nat
  expiresAt : Nat
  createdAt : Nat
  updatedAt : Nat
  isRevoked : Bool
  revokedAt : Option Nat
deriving DecidableEq, Repr

/-- domain.Session.IsExpired: `time.Now().After(s.ExpiresAt)`. -/
def SessionRow.isExpired (s : SessionRow) (now : Nat) : Bool :=
  decide (s.expiresAt < now)

/-- domain.Session.IsValid: `!s.IsExpired() && !s.IsRevoked`. -/
def SessionRow.isValid (s : SessionRow) (now : Nat) : Bool :=
  !s.isExpired now && !s.isRevoked

/-- internal/domain `SessionMetadata`. -/
structure SessionMetadata where
  deviceInfo : String
  ipAddress : String
  userAgent : String
deriving DecidableEq, Repr

/-- internal/domain `RegisterRequest` (validation tags are out of scope). -/
structure RegisterRequest where
  username : String
  email : String
  password : String
  fullName : String
deriving DecidableEq, Repr

/-- internal/domain `LoginRequest`. -/
structure LoginRequest where
  username : String
  password : String
deriving DecidableEq, Repr

/-- internal/domain `UserResponse`. -/
structure UserResponse where
  userId : Nat
  username : String
  email : String
  fullName : String
deriving DecidableEq, Repr

/-- internal/domain `AuthResponse`. -/
structure AuthResponse where
  user : UserResponse
  tokens : TokenPair
deriving DecidableEq, Repr

/-- The backing store: both tables plus the fresh-value counters that stand in
for Postgres sequence / `uuid.New()` / random-JTI generation. -/
structure DB where
  users : List UserRow
  sessions : List SessionRow
  nextUserId : Nat
  nextSessionId : Nat
  nextJti : Nat
deriving DecidableEq, Repr

/-- Modelled from the spec: bcrypt password hashing (golang.org/x/crypto/bcrypt
is not part of this repository).  §4.1: `hash` is a deterministic one-way map
and `verify(hash(p), q)` succeeds exactly when `q = p`; the salt and cost
factor are abstracted away. -/
def hashPassword (password : String) : String :=
  "bcrypt:" ++ password

/-- Modelled from the spec: bcrypt verification, see `hashPassword`.  Returns
`true` on match (Go returns a nil error), `false` on mismatch or malformed
hash (Go returns a non-nil error, never panics). -/
def verifyPassword (hashedPassword password : String) : Bool :=
  hashedPassword == hashPassword password

/-- Errors of the JWT library relevant to service/jwt.go's error switch. -/
inductive JwtParseError where
  | malformedToken
  | badSigningMethod
  | signatureInvalid
  | tokenExpired
  | tokenNotValidYet
deriving DecidableEq, Repr

/-- Modelled from the pinned github.com/golang-jwt/jwt/v5 library: the string
`jwt.ErrTokenExpired.Error()` that service/jwt.go's switch compares against. -/
def jwtErrTokenExpiredString : String := "token is expired"

/-- Modelled from the pinned github.com/golang-jwt/jwt/v5 library: the string
`jwt.ErrTokenNotValidYet.Error()` that service/jwt.go's switch compares
against. -/
def jwtErrTokenNotValidYetString : String := "token is not valid yet"

/-- Modelled from the pinned github.com/golang-jwt/jwt/v5 library: the
`Error()` string of the error `ParseWithClaims` returns in each failure case.
The library wraps every claim-validation failure in `ErrTokenInvalidClaims`
("token has invalid claims: ..."), wraps malformed input in
`ErrTokenMalformed`, a keyfunc failure in `ErrTokenUnverifiable`, and a bad
signature in `ErrTokenSignatureInvalid`, so the returned string is never the
bare sentinel string. -/
def JwtParseError.errorString : JwtParseError → String
  | .malformedToken => "token is malformed: token contains an invalid number of segments"
  | .badSigningMethod =>
      "token is unverifiable: error while executing keyfunc: TOKEN_INVALID: Token is invalid"
  | .signatureInvalid => "token signature is invalid: signature is invalid"
  | .tokenExpired => "token has invalid claims: token is expired"
  | .tokenNotValidYet => "token has invalid claims: token is not valid yet"

/-- Modelled from the spec: `jwt.ParseWithClaims` of github.com/golang-jwt/jwt
(not part of this repository).  Per §4.2 the validation order is: signature
verification against the supplied secret — with foreign signing algorithms
rejected explicitly by the keyfunc in service/jwt.go — then the expiry and
not-before registered-claim checks.  A token is expired when its `exp` is not
after the current time. -/
def jwtParse (ts : TokenStr) (secret : String) (now : Nat) : Except JwtParseError Token :=
  match ts with
  | .malformed _ => .error .malformedToken
  | .wellFormed t =>
    if !t.hmacAlg then .error .badSigningMethod
    else if t.signedWith != secret then .error .signatureInvalid
    else if decide (t.exp ≤ now) then .error .tokenExpired
    else if decide (now < t.nbf) then .error .tokenNotValidYet
    else .ok t

/-- service/jwt.go `JWTService.validateToken`: parse and verify, then map the
library error through the switch that compares `err.Error()` with the
sentinel strings `jwt.ErrTokenExpired.Error()` /
`jwt.ErrTokenNotValidYet.Error()` by exact string equality — against jwt/v5's
wrapped error strings these comparisons never hold, so every library failure
falls to the default TokenInvalid branch — then check token class and
issuer. -/
def JWTService.validateToken (cfg : JWTConfig) (ts : TokenStr)
    (expectedType secret : String) (now : Nat) : Except AppError Claims :=
  match jwtParse ts secret now with
  | .error e =>
    if jwtErrTokenExpiredString == e.errorString then
      .error AppError.tokenExpired
    else if jwtErrTokenNotValidYetString == e.errorString then
      .error (AppError.tokenInvalid.withDetails [("reason", "token not valid yet")])
    else
      .error AppError.tokenInvalid
  | .ok t =>
    if t.type != expectedType then
      .error (AppError.tokenInvalid.withDetails
        [("reason", "wrong token type"), ("expected", expectedType), ("got", t.type)])
    else if t.issuer != cfg.issuer then
      .error (AppError.tokenInvalid.withDetails [("reason", "invalid issuer")])
    else
      .ok ⟨t.userId, t.username, t.email, t.type⟩

/-- service/jwt.go `JWTService.ValidateAccessToken`. -/
def JWTService.ValidateAccessToken (cfg : JWTConfig) (ts : TokenStr) (now : Nat) :
    Except AppError Claims :=
  JWTService.validateToken cfg ts "access" cfg.accessTokenSecret now

/-- service/jwt.go `JWTService.ValidateRefreshToken`. -/
def JWTService.ValidateRefreshToken (cfg : JWTConfig) (ts : TokenStr) (now : Nat) :
    Except AppError Claims :=
  JWTService.validateToken cfg ts "refresh" cfg.refreshTokenSecret now

/-- service/jwt.go `JWTService.generateToken`: build the claims (subject and
expiry derived from `now`), sign with the given secret, return the signed
string and its expiry.  The random JTI is modelled by an explicit fresh
counter value. -/
def JWTService.generateToken (cfg : JWTConfig) (user : UserRow)
    (tokenType : String) (expiry : Nat) (secret : String) (now jti : Nat) :
    TokenStr × Nat :=
  (.wellFormed
    { userId := user.userId
      username := user.username
      email := user.email
      type := tokenType
      issuer := cfg.issuer
      exp := now + expiry
      iat := now
      nbf := now
      jti := jti
      signedWith := secret
      hmacAlg := true }, now + expiry)

/-- service/jwt.go `JWTService.GenerateTokenPair`: an access token and a
refresh token, each with its own expiry and secret; returns the pair and the
refresh token's expiry timestamp.  The two JTIs are drawn from `jti` and
`jti + 1`. -/
def JWTService.GenerateTokenPair (cfg : JWTConfig) (user : UserRow) (now jti : Nat) :
    TokenPair × Nat :=
  let a := JWTService.generateToken cfg user "access" cfg.accessTokenExpiry
    cfg.accessTokenSecret now jti
  let r := JWTService.generateToken cfg user "refresh" cfg.refreshTokenExpiry
    cfg.refreshTokenSecret now (jti + 1)
  (⟨a.1, r.1⟩, r.2)

/-- repository (part_006) `PostgresUserRepository.GetByUsername`. -/
def PostgresUserRepository.GetByUsername (db : DB) (username : String) :
    Except AppError UserRow :=
  match db.users.find? (fun u => u.username == username) with
  | some u => .ok u
  | none => .error (AppError.notFound "user")

/-- repository (part_006) `PostgresUserRepository.GetByEmail`. -/
def PostgresUserRepository.GetByEmail (db : DB) (email : String) :
    Except AppError UserRow :=
  match db.users.find? (fun u => u.email == email) with
  | some u => .ok u
  | none => .error (AppError.notFound "user")

/-- repository (part_006) `PostgresUserRepository.GetByID`. -/
def PostgresUserRepository.GetByID (db : DB) (userID : Nat) :
    Except AppError UserRow :=
  match db.users.find? (fun u => u.userId == userID) with
  | some u => .ok u
  | none => .error (AppError.notFound "user")

/-- repository (part_006) `PostgresUserRepository.Create`: INSERT into `users`;
a duplicate-key violation of the username or email unique constraint is mapped
to the AlreadyExists kind; on success the fresh id and timestamps are scanned
back into the row. -/
def PostgresUserRepository.Create (db : DB) (user : UserRow) (now : Nat) :
    Except AppError (UserRow × DB) :=
  if db.users.any (fun u => u.username == user.username) then
    .error (AppError.alreadyExists "username")
  else if db.users.any (fun u => u.email == user.email) then
    .error (AppError.alreadyExists "email")
  else
    let created := { user with userId := db.nextUserId, createdAt := now, updatedAt := now }
    .ok (created,
      { db with users := db.users ++ [created], nextUserId := db.nextUserId + 1 })

/-- repository (part_006) `PostgresSessionRepository.GetByRefreshToken`:
SELECT by exact token string, filtered to `expires_at > now` (stale rows are
invisible even before the reaper removes them). -/
def PostgresSessionRepository.GetByRefreshToken (db : DB) (refreshToken : TokenStr)
    (now : Nat) : Except AppError SessionRow :=
  match db.sessions.find?
      (fun s => s.refreshToken == refreshToken && decide (now < s.expiresAt)) with
  | some s => .ok s
  | none => .error (AppError.notFound "session")

/-- repository (part_006) `PostgresSessionRepository.Revoke`: UPDATE the row
with the given id to `is_revoked = true, revoked_at = now`; NotFound when no
row was affected. -/
def PostgresSessionRepository.Revoke (db : DB) (sessionID : Nat) (now : Nat) :
    Except AppError DB :=
  if db.sessions.any (fun s => s.sessionId == sessionID) then
    .ok { db with sessions := db.sessions.map (fun s =>
      if s.sessionId == sessionID then
        { s with isRevoked := true, revokedAt := some now, updatedAt := now }
      else s) }
  else .error (AppError.notFound "session")

/-- repository (part_006) `PostgresSessionRepository.RevokeAllByUserID`:
UPDATE all of the user's rows with `is_revoked = false` to revoked; affecting
zero rows is not an error. -/
def PostgresSessionRepository.RevokeAllByUserID (db : DB) (userID : Nat) (now : Nat) : DB :=
  { db with sessions := db.sessions.map (fun s =>
      if s.userId == userID && !s.isRevoked then
        { s with isRevoked := true, revokedAt := some now, updatedAt := now }
      else s) }

/-- repository (part_006) `PostgresSessionRepository.DeleteExpired`: DELETE
rows with `expires_at < now`, independent of revocation state. -/
def PostgresSessionRepository.DeleteExpired (db : DB) (now : Nat) : DB :=
  { db with sessions := db.sessions.filter (fun s => !decide (s.expiresAt < now)) }

/-- repository (part_006) `PostgresSessionRepository.ReplaceUserSession`: in
one transaction, DELETE every `sessions` row of the session's user (revoked or
not), then INSERT the new session with `is_revoked = false` and fresh id and
timestamps.  Returns the inserted row and the updated state. -/
def PostgresSessionRepository.ReplaceUserSession (db : DB) (session : SessionRow)
    (now : Nat) : SessionRow × DB :=
  let remaining := db.sessions.filter (fun s => s.userId != session.userId)
  let inserted := { session with
    sessionId := db.nextSessionId
    lastActivityAt := now
    createdAt := now
    updatedAt := now
    isRevoked := false
    revokedAt := none }
  (inserted,
   { db with sessions := remaining ++ [inserted], nextSessionId := db.nextSessionId + 1 })

/-- service/auth.go `AuthService.generateAndStoreTokensWithSession`: mint a
pair, build the session row carrying the refresh token and metadata, and
replace the user's session atomically. -/
def AuthService.generateAndStoreTokensWithSession (cfg : JWTConfig) (db : DB)
    (user : UserRow) (metadata : SessionMetadata) (now : Nat) :
    Except AppError TokenPair × DB :=
  let g := JWTService.GenerateTokenPair cfg user now db.nextJti
  let db1 := { db with nextJti := db.nextJti + 2 }
  let session : SessionRow :=
    { sessionId := 0
      userId := user.userId
      refreshToken := g.1.refreshToken
      deviceInfo := metadata.deviceInfo
      ipAddress := metadata.ipAddress
      userAgent := metadata.userAgent
      lastActivityAt := 0
      expiresAt := g.2
      createdAt := 0
      updatedAt := 0
      isRevoked := false
      revokedAt := none }
  let r := PostgresSessionRepository.ReplaceUserSession db1 session now
  (.ok g.1, r.2)

/-- service/auth.go `AuthService.Register`, with the state read by the
advisory username/email pre-checks (`dbCheck`) separated from the state the
INSERT runs against (`dbInsert`), so the check-then-insert race is
expressible: a concurrent commit between check and insert makes the two
differ.  The sequential call is the diagonal `AuthService.Register`.  Note the
branch on a failed `userRepo.Create` returns Internal, whatever error the
repository reported. -/
def AuthService.registerRaced (cfg : JWTConfig) (dbCheck dbInsert : DB)
    (req : RegisterRequest) (metadata : SessionMetadata) (now : Nat) :
    Except AppError AuthResponse × DB :=
  match PostgresUserRepository.GetByUsername dbCheck req.username with
  | .ok _ => (.error (AppError.alreadyExists "username"), dbInsert)
  | .error _ =>
  match PostgresUserRepository.GetByEmail dbCheck req.email with
  | .ok _ => (.error (AppError.alreadyExists "email"), dbInsert)
  | .error _ =>
  match PostgresUserRepository.Create dbInsert
      { userId := 0
        username := req.username
        email := req.email
        passwordHash := hashPassword req.password
        fullName := req.fullName
        isActive := true
        createdAt := 0
        updatedAt := 0 } now with
  | .error _ => (.error (AppError.internal "failed to create user"), dbInsert)
  | .ok (created, db1) =>
    match AuthService.generateAndStoreTokensWithSession cfg db1 created metadata now with
    | (.error e, db2) => (.error e, db2)
    | (.ok tokens, db2) =>
      (.ok { user := ⟨created.userId, created.username, created.email, created.fullName⟩
             tokens := tokens }, db2)

/-- service/auth.go `AuthService.Register` (sequential semantics: the checks
and the insert see the same state). -/
def AuthService.Register (cfg : JWTConfig) (db : DB) (req : RegisterRequest)
    (metadata : SessionMetadata) (now : Nat) : Except AppError AuthResponse × DB :=
  AuthService.registerRaced cfg db db req metadata now

/-- service/auth.go `AuthService.Login`: user lookup failure is
InvalidCredentials; an inactive user is Unauthorized (checked before the
password); a failed password verification is InvalidCredentials; on success
mint and replace-session. -/
def AuthService.Login (cfg : JWTConfig) (db : DB) (req : LoginRequest)
    (metadata : SessionMetadata) (now : Nat) : Except AppError AuthResponse × DB :=
  match PostgresUserRepository.GetByUsername db req.username with
  | .error _ => (.error AppError.invalidCredentials, db)
  | .ok user =>
    if !user.isActive then (.error (AppError.unauthorized "account is inactive"), db)
    else if !verifyPassword user.passwordHash req.password then
      (.error AppError.invalidCredentials, db)
    else
      match AuthService.generateAndStoreTokensWithSession cfg db user metadata now with
      | (.error e, db1) => (.error e, db1)
      | (.ok tokens, db1) =>
        (.ok { user := ⟨user.userId, user.username, user.email, user.fullName⟩
               tokens := tokens }, db1)

/-- The state after RefreshToken's Revoke call on the matched old session:
the call's error, if any, is logged and swallowed, so on failure
(`revokeOk = false` models the store call failing) the state is unchanged and
execution continues. -/
def revokeBranch (db : DB) (sessionID now : Nat) (revokeOk : Bool) : DB :=
  if revokeOk then
    match PostgresSessionRepository.Revoke db sessionID now with
    | .ok d => d
    | .error _ => db
  else db

/-- service/auth.go `AuthService.RefreshToken`: validate as refresh class,
look the session up by token string (miss and invalid both TokenInvalid),
re-fetch the user and reject if inactive, revoke the old session — a failure
there is logged and swallowed, see `revokeBranch` — then mint and
replace-session. -/
def AuthService.RefreshToken (cfg : JWTConfig) (db : DB) (refreshTokenStr : TokenStr)
    (metadata : SessionMetadata) (now : Nat) (revokeOk : Bool) :
    Except AppError TokenPair × DB :=
  match JWTService.ValidateRefreshToken cfg refreshTokenStr now with
  | .error e => (.error e, db)
  | .ok claims =>
  match PostgresSessionRepository.GetByRefreshToken db refreshTokenStr now with
  | .error _ =>
      (.error (AppError.tokenInvalid.withDetails
        [("reason", "session not found or revoked")]), db)
  | .ok session =>
  if !session.isValid now then
    (.error (AppError.tokenInvalid.withDetails
      [("reason", "session expired or revoked")]), db)
  else
  match PostgresUserRepository.GetByID db claims.userId with
  | .error _ => (.error (AppError.notFound "user"), db)
  | .ok user =>
  if !user.isActive then (.error (AppError.unauthorized "account is inactive"), db)
  else
    AuthService.generateAndStoreTokensWithSession cfg
      (revokeBranch db session.sessionId now revokeOk) user metadata now

/-- service/auth.go `AuthService.ValidateToken`: validate as access class
(codec failures surface unchanged), re-fetch the user (miss is TokenInvalid),
reject an inactive user as Unauthorized, else return the claims.  The session
store is never consulted. -/
def AuthService.ValidateToken (cfg : JWTConfig) (db : DB) (tokenStr : TokenStr)
    (now : Nat) : Except AppError Claims :=
  match JWTService.ValidateAccessToken cfg tokenStr now with
  | .error e => .error e
  | .ok claims =>
  match PostgresUserRepository.GetByID db claims.userId with
  | .error _ =>
      .error (AppError.tokenInvalid.withDetails [("reason", "user not found")])
  | .ok user =>
  if !user.isActive then .error (AppError.unauthorized "account is inactive")
  else .ok claims

/-- service/auth.go `AuthService.Logout`: revoke all of the user's sessions;
the repository call cannot signal "nothing to revoke", so logout always
succeeds in the absence of a store failure. -/
def AuthService.Logout (db : DB) (userID : Nat) (now : Nat) :
    Except AppError Unit × DB :=
  (.ok (), PostgresSessionRepository.RevokeAllByUserID db userID now)

/-- One externally triggerable operation of the lifecycle core, with its
arrival time and, for refresh, whether the store's Revoke call succeeds. -/
inductive Op where
  | register (req : RegisterRequest) (metadata : SessionMetadata) (now : Nat)
  | login (req : LoginRequest) (metadata : SessionMetadata) (now : Nat)
  | refresh (tok : TokenStr) (metadata : SessionMetadata) (now : Nat) (revokeOk : Bool)
  | logout (userID : Nat) (now : Nat)
deriving DecidableEq, Repr

/-- The state reached after one operation (its result value is dropped). -/
def execOp (cfg : JWTConfig) (db : DB) : Op → DB
  | .register req metadata now => (AuthService.Register cfg db req metadata now).2
  | .login req metadata now => (AuthService.Login cfg db req metadata now).2
  | .refresh tok metadata now revokeOk =>
      (AuthService.RefreshToken cfg db tok metadata now revokeOk).2
  | .logout userID now => (AuthService.Logout db userID now).2

/-- The state reached after a finite sequence of operations. -/
def execOps (cfg : JWTConfig) (db : DB) : List Op → DB
  | [] => db
  | op :: rest => execOps cfg (execOp cfg db op) rest

/-- Number of rows with `is_revoked = false` belonging to `userID` in a
session list. -/
def countActiveIn (sessions : List SessionRow) (userID : Nat) : Nat :=
  (sessions.filter (fun s => s.userId == userID && !s.isRevoked)).length

/-- Number of the user's non-revoked session rows in the state. -/
def activeSessionCount (db : DB) (userID : Nat) : Nat :=
  countActiveIn db.sessions userID

/-- The single-session invariant (spec §8): at most one non-revoked session
row per user. -/
def singleSessionInv (db : DB) : Prop :=
  ∀ userID, activeSessionCount db userID ≤ 1

/-- The kind of a failed call, `none` on success. -/
def errCodeOf {α : Type} : Except AppError α → Option ErrCode
  | .error e => some e.code
  | .ok _ => none

/-- True when the token string carries a JTI below `bound`.  States the
freshness invariant that every token in circulation was minted with a JTI
drawn before the state's counter value. -/
def jtiFresh (bound : Nat) : TokenStr → Bool
  | .wellFormed t => decide (t.jti < bound)
  | .malformed _ => true

/-- The facts that make a RefreshToken call with the string `.wellFormed t`
succeed at time `now`: the token parses as a valid refresh-class token, its
session row `sess` is visible, unexpired and unrevoked, the claims' user is
`user` and active, every stored row holding this token string belongs to
`user` (the refresh_token column is UNIQUE and stores what was minted for its
owner), and every stored token was minted before the state's JTI counter. -/
structure RefreshReady (cfg : JWTConfig) (db : DB) (t : Token)
    (sess : SessionRow) (user : UserRow) (now : Nat) : Prop where
  halg : t.hmacAlg = true
  hsig : t.signedWith = cfg.refreshTokenSecret
  htype : t.type = "refresh"
  hiss : t.issuer = cfg.issuer
  hexp : now < t.exp
  hnbf : t.nbf ≤ now
  hget : PostgresSessionRepository.GetByRefreshToken db (.wellFormed t) now = .ok sess
  hvalid : sess.isValid now = true
  huser : PostgresUserRepository.GetByID db t.userId = .ok user
  hact : user.isActive = true
  howner : ∀ s ∈ db.sessions, s.refreshToken = .wellFormed t → s.userId = user.userId
  hfresh : ∀ s ∈ db.sessions, jtiFresh db.nextJti s.refreshToken = true

/-- Concrete configuration for witnesses. -/
def cfgW : JWTConfig :=
  ⟨"access-secret-W", "refresh-secret-W", 10, 100, "auth-service"⟩

/-- Concrete request metadata for witnesses. -/
def metaW : SessionMetadata := ⟨"dev", "127.0.0.1", "ua"⟩

/-- Concrete active user row for witnesses. -/
def userW : UserRow :=
  ⟨1, "alice", "alice@x.com", hashPassword "Str0ng!Pass", "Alice A", true, 0, 0⟩

/-- Concrete inactive user row for witnesses. -/
def inactiveUserW : UserRow :=
  ⟨2, "bob", "bob@x.com", hashPassword "pw12345678", "Bob B", false, 0, 0⟩

/-- Concrete valid refresh token for `userW` (expires at 100, JTI 0). -/
def tokW : Token :=
  ⟨1, "alice", "alice@x.com", "refresh", "auth-service", 100, 0, 0, 0,
   "refresh-secret-W", true⟩

/-- Concrete valid access token for `userW` (expires at 10). -/
def accessTokW : Token :=
  ⟨1, "alice", "alice@x.com", "access", "auth-service", 10, 0, 0, 0,
   "access-secret-W", true⟩

/-- Concrete valid access token for the inactive `inactiveUserW`. -/
def accessTokBobW : Token :=
  ⟨2, "bob", "bob@x.com", "access", "auth-service", 10, 0, 0, 0,
   "access-secret-W", true⟩

/-- Concrete expired access token for `userW` (expired at 3). -/
def expiredTokW : Token :=
  ⟨1, "alice", "alice@x.com", "access", "auth-service", 3, 0, 0, 0,
   "access-secret-W", true⟩

/-- Concrete session row for `userW` holding `tokW`. -/
def sessW : SessionRow :=
  ⟨0, 1, .wellFormed tokW, "", "", "", 0, 100, 0, 0, false, none⟩

/-- Concrete state for witnesses: two users, one live session. -/
def dbW : DB := ⟨[userW, inactiveUserW], [sessW], 3, 1, 1⟩

/-- The empty state. -/
def emptyDB : DB := ⟨[], [], 0, 0, 0⟩

/-- Concrete registration request for witnesses. -/
def reqAliceW : RegisterRequest := ⟨"alice", "alice@x.com", "Str0ng!Pass", "Alice A"⟩

/-- Concrete login request with the right password. -/
def loginAliceW : LoginRequest := ⟨"alice", "Str0ng!Pass"⟩

/-- Concrete login request with a wrong password for an existing user. -/
def loginAliceWrongW : LoginRequest := ⟨"alice", "wrong-password"⟩

/-- Concrete login request for an unknown username. -/
def loginUnknownW : LoginRequest := ⟨"zoe", "whatever-pass"⟩

/-- Concrete login request for the inactive user. -/
def loginBobW : LoginRequest := ⟨"bob", "pw12345678"⟩

/-- State committed by a concurrent Register between the advisory pre-check
and the INSERT: it already holds a user named alice. -/
def dbRaceW : DB :=
  ⟨[⟨7, "alice", "other@x.com", hashPassword "pw", "Other Alice", true, 0, 0⟩],
   [], 8, 0, 0⟩

/-- Concrete operation sequence for the single-session-invariant witness. -/
def opsW : List Op :=
  [.register reqAliceW metaW 0,
   .login loginAliceW metaW 1,
   .refresh (.wellFormed tokW) metaW 2 true,
   .logout 0 3,
   .logout 0 4]

/-- Concrete already-revoked session row of the inactive user. -/
def sessBobRevokedW : SessionRow :=
  ⟨9, 2, .malformed "junk", "", "", "", 0, 50, 0, 0, true, some 1⟩

/-- Concrete state with a live session for user 1 and a revoked one for
user 2. -/
def dbW2 : DB := ⟨[userW, inactiveUserW], [sessW, sessBobRevokedW], 3, 10, 1⟩

/-- The refresh token minted by `GenerateTokenPair` at counter `jti` (the
refresh half draws `jti + 1`); definitionally equal to what the codec
produces. -/
def mintedRefresh (cfg : JWTConfig) (user : UserRow) (now jti : Nat) : Token :=
  { userId := user.userId
    username := user.username
    email := user.email
    type := "refresh"
    issuer := cfg.issuer
    exp := now + cfg.refreshTokenExpiry
    iat := now
    nbf := now
    jti := jti + 1
    signedWith := cfg.refreshTokenSecret
    hmacAlg := true }

/-- The session row inserted by `generateAndStoreTokensWithSession` on a
state with JTI counter `jti` and session-id counter `sid`; definitionally
equal to what ReplaceUserSession inserts there. -/
def mintedRow (cfg : JWTConfig) (user : UserRow) (metadata : SessionMetadata)
    (now jti sid : Nat) : SessionRow :=
  { sessionId := sid
    userId := user.userId
    refreshToken := .wellFormed (mintedRefresh cfg user now jti)
    deviceInfo := metadata.deviceInfo
    ipAddress := metadata.ipAddress
    userAgent := metadata.userAgent
    lastActivityAt := now
    expiresAt := now + cfg.refreshTokenExpiry
    createdAt := now
    updatedAt := now
    isRevoked := false
    revokedAt := none }

lemma jwtParse_ok {ts : TokenStr} {secret : String} {now : Nat} {t : Token}
    (h : jwtParse ts secret now = .ok t) :
    ts = .wellFormed t ∧ t.hmacAlg = true ∧ t.signedWith = secret
    ∧ ¬ t.exp ≤ now ∧ ¬ now < t.nbf := by
  cases ts with
  | malformed r => simp [jwtParse] at h
  | wellFormed u =>
    simp only [jwtParse] at h
    cases h1 : u.hmacAlg <;> simp [h1] at h
    by_cases h2 : u.signedWith = secret
    · simp [h2] at h
      by_cases h3 : u.exp ≤ now
      · simp [h3] at h
      · simp [h3] at h
        by_cases h4 : now < u.nbf
        · simp [h4] at h
        · simp [h4] at h
          subst h
          exact ⟨rfl, h1, h2, h3, h4⟩
    · simp [bne_iff_ne, h2] at h

lemma validateToken_error_branch (cfg : JWTConfig) (ts : TokenStr)
    (expectedType secret : String) (now : Nat) (e : JwtParseError)
    (h : jwtParse ts secret now = .error e) :
    JWTService.validateToken cfg ts expectedType secret now
      = .error AppError.tokenInvalid := by
  unfold JWTService.validateToken
  rw [h]
  cases e <;> rfl

lemma validateToken_wellFormed_ok_type {cfg : JWTConfig} {u : Token}
    {expectedType secret : String} {now : Nat} {c : Claims}
    (h : JWTService.validateToken cfg (.wellFormed u) expectedType secret now = .ok c) :
    u.type = expectedType := by
  cases hp : jwtParse (.wellFormed u) secret now with
  | error e =>
    rw [validateToken_error_branch cfg (.wellFormed u) expectedType secret now e hp] at h
    simp at h
  | ok t =>
    obtain ⟨hts, -, -, -, -⟩ := jwtParse_ok hp
    injection hts with htu
    simp only [JWTService.validateToken, hp] at h
    by_cases h5 : t.type = expectedType
    · rw [htu]
      exact h5
    · simp [bne_iff_ne, h5] at h

/-- C3 (code bug evidence): the spec requires a past-expiry token to surface
the distinct TokenExpired kind, and service/jwt.go's switch has a branch for
exactly that — but the branch compares `err.Error()` with
`jwt.ErrTokenExpired.Error()` by exact string equality, and jwt/v5 wraps the
expiry failure as "token has invalid claims: token is expired", so the branch
never fires.  At the concrete expired access token the parse-level error is
the expired one and the sentinel string differs from the wrapped one, yet the
codec and the service both surface TokenInvalid, a kind distinct from the
TokenExpired the claim requires. -/
theorem expired_token_surfaces_tokenInvalid :
    jwtParse (.wellFormed expiredTokW) cfgW.accessTokenSecret 5
      = .error .tokenExpired
    ∧ jwtErrTokenExpiredString ≠ JwtParseError.tokenExpired.errorString
    ∧ JWTService.ValidateAccessToken cfgW (.wellFormed expiredTokW) 5
      = .error AppError.tokenInvalid
    ∧ AuthService.ValidateToken cfgW dbW (.wellFormed expiredTokW) 5
      = .error AppError.tokenInvalid
    ∧ AppError.tokenExpired.code ≠ AppError.tokenInvalid.code :=
  ⟨by decide, by decide, by decide, by decide, by decide⟩

/-- C5: class isolation.  An access token (signed with the access secret,
which config validation keeps distinct from the refresh secret) presented to
RefreshToken is rejected with the TokenInvalid kind, and a refresh token
presented to ValidateToken likewise; moreover no token whose class claim
differs from the expected class is ever accepted by the codec, whichever
secret signed it. -/
theorem wrong_class_token_rejected
    (cfg : JWTConfig) (db : DB) (t : Token) (metadata : SessionMetadata)
    (now : Nat) (revokeOk : Bool)
    (hsecrets : cfg.accessTokenSecret ≠ cfg.refreshTokenSecret) :
    (t.type = "access" → t.signedWith = cfg.accessTokenSecret →
      AuthService.RefreshToken cfg db (.wellFormed t) metadata now revokeOk
        = (.error AppError.tokenInvalid, db))
    ∧ (t.type = "refresh" → t.signedWith = cfg.refreshTokenSecret →
      AuthService.ValidateToken cfg db (.wellFormed t) now
        = .error AppError.tokenInvalid)
    ∧ (∀ u : Token, u.type ≠ "refresh" → ∀ c,
        JWTService.ValidateRefreshToken cfg (.wellFormed u) now ≠ .ok c)
    ∧ (∀ u : Token, u.type ≠ "access" → ∀ c,
        JWTService.ValidateAccessToken cfg (.wellFormed u) now ≠ .ok c) := by
  refine ⟨?_, ?_, ?_, ?_⟩
  · intro _ hsig
    have hbne : (t.signedWith != cfg.refreshTokenSecret) = true := by
      simp only [hsig, bne_iff_ne, ne_eq]
      exact hsecrets
    have hparse : ∃ e, jwtParse (.wellFormed t) cfg.refreshTokenSecret now = .error e := by
      cases h1 : t.hmacAlg
      · exact ⟨.badSigningMethod, by simp [jwtParse, h1]⟩
      · exact ⟨.signatureInvalid, by simp [jwtParse, h1, hbne]⟩
    obtain ⟨e, he⟩ := hparse
    have hv : JWTService.ValidateRefreshToken cfg (.wellFormed t) now
        = .error AppError.tokenInvalid :=
      validateToken_error_branch cfg (.wellFormed t) "refresh"
        cfg.refreshTokenSecret now e he
    simp [AuthService.RefreshToken, hv]
  · intro _ hsig
    have hbne : (t.signedWith != cfg.accessTokenSecret) = true := by
      simp only [hsig, bne_iff_ne, ne_eq]
      exact fun hh => hsecrets hh.symm
    have hparse : ∃ e, jwtParse (.wellFormed t) cfg.accessTokenSecret now = .error e := by
      cases h1 : t.hmacAlg
      · exact ⟨.badSigningMethod, by simp [jwtParse, h1]⟩
      · exact ⟨.signatureInvalid, by simp [jwtParse, h1, hbne]⟩
    obtain ⟨e, he⟩ := hparse
    have hv : JWTService.ValidateAccessToken cfg (.wellFormed t) now
        = .error AppError.tokenInvalid :=
      validateToken_error_branch cfg (.wellFormed t) "access"
        cfg.accessTokenSecret now e he
    simp [AuthService.ValidateToken, hv]
  · intro u hu c hok
    exact hu (validateToken_wellFormed_ok_type hok)
  · intro u hu c hok
    exact hu (validateToken_wellFormed_ok_type hok)

/-- C5 witness: the concrete access token presented to RefreshToken, and the
concrete refresh token presented to ValidateToken, both get TokenInvalid. -/
theorem wrong_class_token_rejected_witness :
    AuthService.RefreshToken cfgW dbW (.wellFormed accessTokW) metaW 5 true
      = (.error AppError.tokenInvalid, dbW)
    ∧ AuthService.ValidateToken cfgW dbW (.wellFormed tokW) 5
      = .error AppError.tokenInvalid :=
  ⟨(wrong_class_token_rejected cfgW dbW accessTokW metaW 5 true (by decide)).1
      rfl rfl,
   (wrong_class_token_rejected cfgW dbW tokW metaW 5 true (by decide)).2.1
      rfl rfl⟩

/-- C6: Login failure uniformity.  An unknown username and a wrong password
for an existing active user both return the very same InvalidCredentials
error value, so the two runs are indistinguishable to the caller; a matched
inactive user gets Unauthorized instead (that check precedes password
verification).  The last conjunct states the indistinguishability across two
arbitrary runs directly. -/
theorem login_failure_uniformity
    (cfg : JWTConfig) (db : DB) (req : LoginRequest) (metadata : SessionMetadata)
    (now : Nat) :
    (∀ e, PostgresUserRepository.GetByUsername db req.username = .error e →
      AuthService.Login cfg db req metadata now = (.error AppError.invalidCredentials, db))
    ∧ (∀ user, PostgresUserRepository.GetByUsername db req.username = .ok user →
      user.isActive = true → verifyPassword user.passwordHash req.password = false →
      AuthService.Login cfg db req metadata now = (.error AppError.invalidCredentials, db))
    ∧ (∀ user, PostgresUserRepository.GetByUsername db req.username = .ok user →
      user.isActive = false →
      AuthService.Login cfg db req metadata now
        = (.error (AppError.unauthorized "account is inactive"), db))
    ∧ (∀ db₂ req₂ metadata₂ now₂ e user₂,
      PostgresUserRepository.GetByUsername db req.username = .error e →
      PostgresUserRepository.GetByUsername db₂ req₂.username = .ok user₂ →
      user₂.isActive = true → verifyPassword user₂.passwordHash req₂.password = false →
      (AuthService.Login cfg db req metadata now).1
        = (AuthService.Login cfg db₂ req₂ metadata₂ now₂).1) := by
  refine ⟨?_, ?_, ?_, ?_⟩
  · intro e h
    simp [AuthService.Login, h]
  · intro user h hact hpw
    simp [AuthService.Login, h, hact, hpw]
  · intro user h hact
    simp [AuthService.Login, h, hact]
  · intro db₂ req₂ metadata₂ now₂ e user₂ h1 h2 hact hpw
    simp [AuthService.Login, h1, h2, hact, hpw]

/-- C6 witness: on the concrete state, the unknown-user run and the
wrong-password run return equal errors, and the inactive user gets
Unauthorized. -/
theorem login_failure_uniformity_witness :
    AuthService.Login cfgW dbW loginUnknownW metaW 5
      = (.error AppError.invalidCredentials, dbW)
    ∧ AuthService.Login cfgW dbW loginAliceWrongW metaW 5
      = (.error AppError.invalidCredentials, dbW)
    ∧ (AuthService.Login cfgW dbW loginUnknownW metaW 5).1
      = (AuthService.Login cfgW dbW loginAliceWrongW metaW 5).1
    ∧ AuthService.Login cfgW dbW loginBobW metaW 5
      = (.error (AppError.unauthorized "account is inactive"), dbW) :=
  ⟨(login_failure_uniformity cfgW dbW loginUnknownW metaW 5).1
      (AppError.notFound "user") (by decide),
   (login_failure_uniformity cfgW dbW loginAliceWrongW metaW 5).2.1
      userW (by decide) rfl (by decide),
   (login_failure_uniformity cfgW dbW loginUnknownW metaW 5).2.2.2
      dbW loginAliceWrongW metaW 5 (AppError.notFound "user") userW
      (by decide) (by decide) rfl (by decide),
   (login_failure_uniformity cfgW dbW loginBobW metaW 5).2.2.1
      inactiveUserW (by decide) rfl⟩

/-- C7: for a signature-valid, unexpired, well-formed access token whose user
row exists, ValidateToken returns Unauthorized when the user is inactive at
call time (the unexpired token is not honored), returns the decoded Claims
when the user is active, and its result does not depend on the session store
at all (the sessions table can be replaced arbitrarily without changing the
outcome; the embedding of ValidateToken performs no state mutation). -/
theorem validateToken_deactivation_and_session_free
    (cfg : JWTConfig) (db : DB) (t : Token) (now : Nat) (user : UserRow)
    (halg : t.hmacAlg = true)
    (hsig : t.signedWith = cfg.accessTokenSecret)
    (htype : t.type = "access")
    (hiss : t.issuer = cfg.issuer)
    (hexp : now < t.exp)
    (hnbf : t.nbf ≤ now)
    (huser : PostgresUserRepository.GetByID db t.userId = .ok user) :
    (user.isActive = false →
      AuthService.ValidateToken cfg db (.wellFormed t) now
        = .error (AppError.unauthorized "account is inactive"))
    ∧ (user.isActive = true →
      AuthService.ValidateToken cfg db (.wellFormed t) now
        = .ok ⟨t.userId, t.username, t.email, t.type⟩)
    ∧ (∀ sessions₂ : List SessionRow,
      AuthService.ValidateToken cfg { db with sessions := sessions₂ } (.wellFormed t) now
        = AuthService.ValidateToken cfg db (.wellFormed t) now) := by
  have hnexp : ¬ t.exp ≤ now := by omega
  have hnnbf : ¬ now < t.nbf := by omega
  refine ⟨?_, ?_, fun _ => rfl⟩
  · intro hact
    simp [AuthService.ValidateToken, JWTService.ValidateAccessToken,
      JWTService.validateToken, jwtParse, halg, hsig, htype, hiss, hnexp, hnnbf,
      huser, hact]
  · intro hact
    simp [AuthService.ValidateToken, JWTService.ValidateAccessToken,
      JWTService.validateToken, jwtParse, halg, hsig, htype, hiss, hnexp, hnnbf,
      huser, hact]

/-- C7 witness: the concrete still-unexpired access token of the inactive
user is rejected Unauthorized, the active user's token yields its claims, and
swapping the session store does not change the latter. -/
theorem validateToken_deactivation_witness :
    AuthService.ValidateToken cfgW dbW (.wellFormed accessTokBobW) 5
      = .error (AppError.unauthorized "account is inactive")
    ∧ AuthService.ValidateToken cfgW dbW (.wellFormed accessTokW) 5
      = .ok ⟨1, "alice", "alice@x.com", "access"⟩
    ∧ AuthService.ValidateToken cfgW { dbW with sessions := [] }
        (.wellFormed accessTokW) 5
      = AuthService.ValidateToken cfgW dbW (.wellFormed accessTokW) 5 :=
  ⟨(validateToken_deactivation_and_session_free cfgW dbW accessTokBobW 5
      inactiveUserW rfl rfl rfl rfl (by decide) (by decide) (by decide)).1 rfl,
   (validateToken_deactivation_and_session_free cfgW dbW accessTokW 5
      userW rfl rfl rfl rfl (by decide) (by decide) (by decide)).2.1 rfl,
   (validateToken_deactivation_and_session_free cfgW dbW accessTokW 5
      userW rfl rfl rfl rfl (by decide) (by decide) (by decide)).2.2 []⟩

lemma revokeAll_mem_shape (db : DB) (userID now : Nat) :
    ∀ x ∈ (PostgresSessionRepository.RevokeAllByUserID db userID now).sessions,
      x.userId = userID → x.isRevoked = true := by
  intro x hx hxu
  simp only [PostgresSessionRepository.RevokeAllByUserID, List.mem_map] at hx
  obtain ⟨s, hs, rfl⟩ := hx
  by_cases hc : (s.userId == userID && !s.isRevoked) = true
  · simp [hc]
  · simp [hc] at hxu ⊢
    simp only [Bool.and_eq_true, beq_iff_eq, Bool.not_eq_true', not_and] at hc
    simpa using hc hxu

lemma revokeAll_idem (db : DB) (userID now now₂ : Nat) :
    PostgresSessionRepository.RevokeAllByUserID
      (PostgresSessionRepository.RevokeAllByUserID db userID now) userID now₂
    = PostgresSessionRepository.RevokeAllByUserID db userID now := by
  simp only [PostgresSessionRepository.RevokeAllByUserID, List.map_map]
  congr 1
  apply List.map_congr_left
  intro s _
  by_cases hc : (s.userId == userID && !s.isRevoked) = true
  · simp [Function.comp, hc]
  · simp [Function.comp, hc]

lemma map_eq_self_of_eq {α : Type} (l : List α) (f : α → α)
    (h : ∀ x ∈ l, f x = x) : l.map f = l := by
  induction l with
  | nil => rfl
  | cons a l ih =>
    simp only [List.map_cons, h a (by simp), List.cons.injEq, true_and]
    exact ih (fun x hx => h x (by simp [hx]))

lemma revokeAll_no_member (db : DB) (userID now : Nat)
    (h : ∀ s ∈ db.sessions, s.userId ≠ userID) :
    PostgresSessionRepository.RevokeAllByUserID db userID now = db := by
  simp only [PostgresSessionRepository.RevokeAllByUserID]
  rw [map_eq_self_of_eq _ _ (fun s hs => by simp [h s hs])]

/-- C8: Logout idempotence.  Logout always succeeds; a second Logout also
succeeds and leaves the state exactly as the first left it; Logout on a state
where the user has no session rows succeeds and changes nothing; and after a
Logout every remaining row of the user is revoked, hence not valid at any
time. -/
theorem logout_idempotent (db : DB) (userID now now₂ : Nat) :
    (AuthService.Logout db userID now).1 = .ok ()
    ∧ (AuthService.Logout (AuthService.Logout db userID now).2 userID now₂).1 = .ok ()
    ∧ (AuthService.Logout (AuthService.Logout db userID now).2 userID now₂).2
        = (AuthService.Logout db userID now).2
    ∧ ((∀ s ∈ db.sessions, s.userId ≠ userID) →
        AuthService.Logout db userID now = (.ok (), db))
    ∧ (∀ s ∈ (AuthService.Logout db userID now).2.sessions, s.userId = userID →
        ∀ t, s.isValid t = false) := by
  refine ⟨rfl, rfl, ?_, ?_, ?_⟩
  · simp only [AuthService.Logout]
    exact revokeAll_idem db userID now now₂
  · intro h
    simp only [AuthService.Logout]
    rw [revokeAll_no_member db userID now h]
  · intro s hs hsu t
    have : s.isRevoked = true :=
      revokeAll_mem_shape db userID now s hs hsu
    simp [SessionRow.isValid, this]

/-- C8 witness: on the concrete state, two consecutive Logouts for user 1
succeed, the second is a no-op, Logout for session-less user 2 changes
nothing, and user 1's remaining row is invalid afterwards. -/
theorem logout_idempotent_witness :
    (AuthService.Logout dbW 1 5).1 = .ok ()
    ∧ (AuthService.Logout (AuthService.Logout dbW 1 5).2 1 6).2
        = (AuthService.Logout dbW 1 5).2
    ∧ AuthService.Logout dbW 2 5 = (.ok (), dbW) :=
  ⟨(logout_idempotent dbW 1 5 6).1,
   (logout_idempotent dbW 1 5 6).2.2.1,
   (logout_idempotent dbW 2 5 6).2.2.2.1 (by decide)⟩

lemma generateAndStore_eq (cfg : JWTConfig) (db : DB) (user : UserRow)
    (metadata : SessionMetadata) (now : Nat) :
    AuthService.generateAndStoreTokensWithSession cfg db user metadata now
      = (.ok ⟨(JWTService.GenerateTokenPair cfg user now db.nextJti).1.accessToken,
              .wellFormed (mintedRefresh cfg user now db.nextJti)⟩,
         { db with
             sessions := db.sessions.filter (fun s => s.userId != user.userId)
               ++ [mintedRow cfg user metadata now db.nextJti db.nextSessionId]
             nextSessionId := db.nextSessionId + 1
             nextJti := db.nextJti + 2 }) := rfl

/-- C9: ReplaceUserSession hard-deletes every row of the target user — the
soft-revoked audit rows included — so in the resulting state the only row of
that user is the freshly inserted non-revoked one, while the rows of every
other user are exactly preserved; consequently after the
replace-session step shared by Register, Login and RefreshToken no revoked
row of that user survives. -/
theorem replaceUserSession_frame (cfg : JWTConfig) (db : DB) (sess : SessionRow)
    (now : Nat) :
    (PostgresSessionRepository.ReplaceUserSession db sess now).1.userId = sess.userId
    ∧ (PostgresSessionRepository.ReplaceUserSession db sess now).1.isRevoked = false
    ∧ (∀ s ∈ (PostgresSessionRepository.ReplaceUserSession db sess now).2.sessions,
        s.userId = sess.userId →
        s = (PostgresSessionRepository.ReplaceUserSession db sess now).1)
    ∧ (PostgresSessionRepository.ReplaceUserSession db sess now).2.sessions.filter
        (fun s => s.userId != sess.userId)
        = db.sessions.filter (fun s => s.userId != sess.userId)
    ∧ (∀ s ∈ db.sessions, s.userId ≠ sess.userId →
        s ∈ (PostgresSessionRepository.ReplaceUserSession db sess now).2.sessions)
    ∧ (∀ user metadata,
        ∀ s ∈ (AuthService.generateAndStoreTokensWithSession cfg db
          user metadata now).2.sessions, s.userId = user.userId → s.isRevoked = false) := by
  refine ⟨rfl, rfl, ?_, ?_, ?_, ?_⟩
  · intro s hs hsu
    simp only [PostgresSessionRepository.ReplaceUserSession, List.mem_append,
      List.mem_filter, List.mem_singleton] at hs
    rcases hs with ⟨_, hpred⟩ | rfl
    · exact absurd hsu (by simpa [bne_iff_ne] using hpred)
    · rfl
  · simp only [PostgresSessionRepository.ReplaceUserSession, List.filter_append,
      List.filter_filter, Bool.and_self]
    simp
  · intro s hs hne
    simp only [PostgresSessionRepository.ReplaceUserSession, List.mem_append,
      List.mem_filter]
    exact Or.inl ⟨hs, by simpa [bne_iff_ne] using hne⟩
  · intro user metadata s hs hsu
    rw [generateAndStore_eq] at hs
    simp only [List.mem_append, List.mem_filter, List.mem_singleton] at hs
    rcases hs with ⟨_, hpred⟩ | rfl
    · exact absurd hsu (by simpa [bne_iff_ne] using hpred)
    · rfl

/-- C9 witness: replacing user 1's session in the concrete two-user state
keeps user 2's revoked row, while user 1's surviving row is exactly the
inserted one. -/
theorem replaceUserSession_frame_witness :
    sessBobRevokedW ∈ (PostgresSessionRepository.ReplaceUserSession dbW2 sessW 5).2.sessions
    ∧ (PostgresSessionRepository.ReplaceUserSession dbW2 sessW 5).1
        = (PostgresSessionRepository.ReplaceUserSession dbW2 sessW 5).1 :=
  ⟨(replaceUserSession_frame cfgW dbW2 sessW 5).2.2.2.2.1 sessBobRevokedW
      (by decide) (by decide),
   (replaceUserSession_frame cfgW dbW2 sessW 5).2.2.1
      (PostgresSessionRepository.ReplaceUserSession dbW2 sessW 5).1
      (by decide) (by decide)⟩

lemma length_filter_mono {α : Type} (l : List α) (p q : α → Bool)
    (h : ∀ a, p a = true → q a = true) :
    (l.filter p).length ≤ (l.filter q).length := by
  induction l with
  | nil => simp
  | cons a l ih =>
    cases hp : p a with
    | true =>
      simp [List.filter_cons, hp, h a hp]
      omega
    | false =>
      cases hq : q a with
      | true =>
        simp [List.filter_cons, hp, hq]
        omega
      | false =>
        simp [List.filter_cons, hp, hq]
        exact ih

lemma countActiveIn_append (l₁ l₂ : List SessionRow) (w : Nat) :
    countActiveIn (l₁ ++ l₂) w = countActiveIn l₁ w + countActiveIn l₂ w := by
  simp [countActiveIn, List.filter_append]

lemma countActiveIn_filter_le (l : List SessionRow) (p : SessionRow → Bool) (w : Nat) :
    countActiveIn (l.filter p) w ≤ countActiveIn l w := by
  simp only [countActiveIn, List.filter_filter]
  exact length_filter_mono l _ _
    (fun a ha => by simp only [Bool.and_eq_true] at ha ⊢; exact ha.1)

lemma countActiveIn_filter_ne_self (l : List SessionRow) (v : Nat) :
    countActiveIn (l.filter (fun s => s.userId != v)) v = 0 := by
  simp only [countActiveIn, List.filter_filter, List.length_eq_zero]
  rw [List.filter_eq_nil_iff]
  intro a _
  by_cases h : a.userId = v <;> simp [h, bne_iff_ne]

lemma countActiveIn_singleton_le (r : SessionRow) (w : Nat) :
    countActiveIn [r] w ≤ 1 := by
  simp only [countActiveIn]
  cases h : (r.userId == w && !r.isRevoked) <;> simp [List.filter_cons, h]

lemma countActiveIn_singleton_ne (r : SessionRow) (w : Nat) (h : r.userId ≠ w) :
    countActiveIn [r] w = 0 := by
  simp [countActiveIn, List.filter_cons, h]

lemma countActiveIn_map_le (l : List SessionRow) (f : SessionRow → SessionRow)
    (hf : ∀ s, f s = s ∨ (f s).isRevoked = true) (w : Nat) :
    countActiveIn (l.map f) w ≤ countActiveIn l w := by
  induction l with
  | nil => simp [countActiveIn]
  | cons a l ih =>
    simp only [countActiveIn, List.map_cons, List.filter_cons] at ih ⊢
    rcases hf a with h | h
    · rw [h]
      by_cases hp : (a.userId == w && !a.isRevoked) = true
      · simp only [hp, if_true, List.length_cons]
        omega
      · simp only [hp, if_false]
        exact ih
    · have hpa : ((f a).userId == w && !(f a).isRevoked) = false := by simp [h]
      simp only [hpa, Bool.false_eq_true, if_false]
      by_cases hp : (a.userId == w && !a.isRevoked) = true
      · simp only [hp, if_true, List.length_cons]
        omega
      · simp only [hp, if_false]
        exact ih

lemma Create_ok_state {db : DB} {user : UserRow} {now : Nat} {created : UserRow}
    {db' : DB} (h : PostgresUserRepository.Create db user now = .ok (created, db')) :
    db'.sessions = db.sessions ∧ db'.nextSessionId = db.nextSessionId
    ∧ db'.nextJti = db.nextJti := by
  simp only [PostgresUserRepository.Create] at h
  split at h
  · simp at h
  · split at h
    · simp at h
    · simp only [Except.ok.injEq, Prod.mk.injEq] at h
      obtain ⟨-, h2⟩ := h
      rw [← h2]
      exact ⟨rfl, rfl, rfl⟩

lemma Revoke_ok_state {db : DB} {sid now : Nat} {db' : DB}
    (h : PostgresSessionRepository.Revoke db sid now = .ok db') :
    db'.users = db.users ∧ db'.nextUserId = db.nextUserId
    ∧ db'.nextSessionId = db.nextSessionId ∧ db'.nextJti = db.nextJti
    ∧ db'.sessions = db.sessions.map (fun s =>
        if s.sessionId == sid then
          { s with isRevoked := true, revokedAt := some now, updatedAt := now }
        else s) := by
  simp only [PostgresSessionRepository.Revoke] at h
  split at h
  · simp only [Except.ok.injEq] at h
    rw [← h]
    exact ⟨rfl, rfl, rfl, rfl, rfl⟩
  · simp at h

lemma revokeBranch_count_le (db : DB) (sid now : Nat) (rOk : Bool) (w : Nat) :
    countActiveIn (revokeBranch db sid now rOk).sessions w
      ≤ countActiveIn db.sessions w := by
  unfold revokeBranch
  cases rOk
  · simp
  · simp only [if_true]
    cases hR : PostgresSessionRepository.Revoke db sid now with
    | ok d =>
      rw [(Revoke_ok_state hR).2.2.2.2]
      apply countActiveIn_map_le
      intro s
      by_cases hc : (s.sessionId == sid) = true <;> simp [hc]
    | error e => exact le_refl _

lemma revokeBranch_state (db : DB) (sid now : Nat) (rOk : Bool) :
    (revokeBranch db sid now rOk).users = db.users
    ∧ (revokeBranch db sid now rOk).nextUserId = db.nextUserId
    ∧ (revokeBranch db sid now rOk).nextSessionId = db.nextSessionId
    ∧ (revokeBranch db sid now rOk).nextJti = db.nextJti := by
  unfold revokeBranch
  cases rOk
  · simp
  · simp only [if_true]
    cases hR : PostgresSessionRepository.Revoke db sid now with
    | ok d =>
      obtain ⟨h1, h2, h3, h4, -⟩ := Revoke_ok_state hR
      exact ⟨h1, h2, h3, h4⟩
    | error e => exact ⟨rfl, rfl, rfl, rfl⟩

lemma revokeBranch_sessions_shape (db : DB) (sid now : Nat) (rOk : Bool) :
    ∀ x ∈ (revokeBranch db sid now rOk).sessions,
      ∃ s ∈ db.sessions, x.refreshToken = s.refreshToken ∧ x.userId = s.userId := by
  intro x hx
  unfold revokeBranch at hx
  cases rOk
  · simp only [Bool.false_eq_true, if_false] at hx
    exact ⟨x, hx, rfl, rfl⟩
  · simp only [if_true] at hx
    cases hR : PostgresSessionRepository.Revoke db sid now with
    | ok d =>
      rw [hR] at hx
      rw [(Revoke_ok_state hR).2.2.2.2] at hx
      obtain ⟨s, hs, rfl⟩ := List.mem_map.mp hx
      by_cases hc : (s.sessionId == sid) = true <;> simp [hc] <;> exact ⟨s, hs, rfl, rfl⟩
    | error e =>
      rw [hR] at hx
      exact ⟨x, hx, rfl, rfl⟩

lemma gen_count_le (cfg : JWTConfig) (db : DB) (user : UserRow)
    (metadata : SessionMetadata) (now : Nat)
    (hinv : ∀ v, countActiveIn db.sessions v ≤ 1) (w : Nat) :
    countActiveIn
      (AuthService.generateAndStoreTokensWithSession cfg db user metadata now).2.sessions
      w ≤ 1 := by
  rw [generateAndStore_eq]
  show countActiveIn (db.sessions.filter _ ++ [_]) w ≤ 1
  rw [countActiveIn_append]
  by_cases hw : w = user.userId
  · subst hw
    rw [countActiveIn_filter_ne_self]
    have := countActiveIn_singleton_le
      (mintedRow cfg user metadata now db.nextJti db.nextSessionId) user.userId
    omega
  · have h1 := countActiveIn_filter_le db.sessions
      (fun s => s.userId != user.userId) w
    have h2 : countActiveIn
        [mintedRow cfg user metadata now db.nextJti db.nextSessionId] w = 0 :=
      countActiveIn_singleton_ne _ _ (fun hh => hw hh.symm)
    have h3 := hinv w
    omega

lemma match_gen_snd (cfg : JWTConfig) (db : DB) (user : UserRow)
    (metadata : SessionMetadata) (now : Nat)
    (k : TokenPair → Except AppError AuthResponse) :
    (match AuthService.generateAndStoreTokensWithSession cfg db user metadata now with
      | (.error e, db2) => ((.error e : Except AppError AuthResponse), db2)
      | (.ok tokens, db2) => (k tokens, db2)).2
    = (AuthService.generateAndStoreTokensWithSession cfg db user metadata now).2 := by
  rcases hG : AuthService.generateAndStoreTokensWithSession cfg db user metadata now
    with ⟨fst, snd⟩
  cases fst <;> rfl

lemma registerRaced_count_le (cfg : JWTConfig) (dbC dbI : DB)
    (req : RegisterRequest) (metadata : SessionMetadata) (now : Nat)
    (hinv : ∀ v, countActiveIn dbI.sessions v ≤ 1) (w : Nat) :
    countActiveIn
      (AuthService.registerRaced cfg dbC dbI req metadata now).2.sessions w ≤ 1 := by
  unfold AuthService.registerRaced
  cases hU : PostgresUserRepository.GetByUsername dbC req.username with
  | ok u => simp only [hU]; exact hinv w
  | error e =>
    simp only [hU]
    cases hE : PostgresUserRepository.GetByEmail dbC req.email with
    | ok u => simp only [hE]; exact hinv w
    | error e2 =>
      simp only [hE]
      cases hC : PostgresUserRepository.Create dbI
          { userId := 0
            username := req.username
            email := req.email
            passwordHash := hashPassword req.password
            fullName := req.fullName
            isActive := true
            createdAt := 0
            updatedAt := 0 } now with
      | error e3 => simp only [hC]; exact hinv w
      | ok p =>
        obtain ⟨created, db1⟩ := p
        simp only [hC]
        have hinv1 : ∀ v, countActiveIn db1.sessions v ≤ 1 := by
          intro v
          rw [(Create_ok_state hC).1]
          exact hinv v
        rw [match_gen_snd]
        exact gen_count_le cfg db1 created metadata now hinv1 w

lemma login_count_le (cfg : JWTConfig) (db : DB) (req : LoginRequest)
    (metadata : SessionMetadata) (now : Nat)
    (hinv : ∀ v, countActiveIn db.sessions v ≤ 1) (w : Nat) :
    countActiveIn (AuthService.Login cfg db req metadata now).2.sessions w ≤ 1 := by
  unfold AuthService.Login
  cases hU : PostgresUserRepository.GetByUsername db req.username with
  | error e => simp only [hU]; exact hinv w
  | ok user =>
    simp only [hU]
    cases hact : user.isActive
    · simp only [hact, Bool.not_false, if_true]
      exact hinv w
    · simp only [hact, Bool.not_true, Bool.false_eq_true, if_false]
      cases hpw : verifyPassword user.passwordHash req.password
      · simp only [hpw, Bool.not_false, if_true]
        exact hinv w
      · simp only [hpw, Bool.not_true, Bool.false_eq_true, if_false]
        rw [match_gen_snd]
        exact gen_count_le cfg db user metadata now hinv w

lemma refresh_count_le (cfg : JWTConfig) (db : DB) (ts : TokenStr)
    (metadata : SessionMetadata) (now : Nat) (revokeOk : Bool)
    (hinv : ∀ v, countActiveIn db.sessions v ≤ 1) (w : Nat) :
    countActiveIn
      (AuthService.RefreshToken cfg db ts metadata now revokeOk).2.sessions w ≤ 1 := by
  unfold AuthService.RefreshToken
  cases hV : JWTService.ValidateRefreshToken cfg ts now with
  | error e => simp only [hV]; exact hinv w
  | ok claims =>
    simp only [hV]
    cases hG : PostgresSessionRepository.GetByRefreshToken db ts now with
    | error e => simp only [hG]; exact hinv w
    | ok sess =>
      simp only [hG]
      cases hv : sess.isValid now
      · simp only [hv, Bool.not_false, if_true]
        exact hinv w
      · simp only [hv, Bool.not_true, Bool.false_eq_true, if_false]
        cases hU : PostgresUserRepository.GetByID db claims.userId with
        | error e => simp only [hU]; exact hinv w
        | ok user =>
          simp only [hU]
          cases hact : user.isActive
          · simp only [hact, Bool.not_false, if_true]
            exact hinv w
          · simp only [hact, Bool.not_true, Bool.false_eq_true, if_false]
            have hinv1 : ∀ v,
                countActiveIn (revokeBranch db sess.sessionId now revokeOk).sessions v ≤ 1 :=
              fun v => le_trans (revokeBranch_count_le db sess.sessionId now revokeOk v)
                (hinv v)
            exact gen_count_le cfg _ user metadata now hinv1 w

lemma logout_count_le (db : DB) (userID now : Nat)
    (hinv : ∀ v, countActiveIn db.sessions v ≤ 1) (w : Nat) :
    countActiveIn (AuthService.Logout db userID now).2.sessions w ≤ 1 := by
  show countActiveIn
    (PostgresSessionRepository.RevokeAllByUserID db userID now).sessions w ≤ 1
  simp only [PostgresSessionRepository.RevokeAllByUserID]
  refine le_trans (countActiveIn_map_le db.sessions _ ?_ w) (hinv w)
  intro s
  by_cases hc : (s.userId == userID && !s.isRevoked) = true <;> simp [hc]

lemma execOp_preserves (cfg : JWTConfig) (db : DB) (op : Op)
    (hinv : singleSessionInv db) : singleSessionInv (execOp cfg db op) := by
  cases op with
  | register req metadata now =>
    exact fun w => registerRaced_count_le cfg db db req metadata now hinv w
  | login req metadata now =>
    exact fun w => login_count_le cfg db req metadata now hinv w
  | refresh tok metadata now revokeOk =>
    exact fun w => refresh_count_le cfg db tok metadata now revokeOk hinv w
  | logout userID now =>
    exact fun w => logout_count_le db userID now hinv w

/-- C1: the single-session invariant.  From any state in which every user has
at most one non-revoked session row, any finite sequence of Register, Login,
RefreshToken and Logout operations — with arbitrary arguments, arrival times,
and Revoke-call outcomes — leads to a state where every user still has at
most one non-revoked session row. -/
theorem single_session_invariant_preserved (cfg : JWTConfig) (db : DB)
    (ops : List Op) (hinv : singleSessionInv db) :
    singleSessionInv (execOps cfg db ops) := by
  induction ops generalizing db with
  | nil => exact hinv
  | cons op rest ih => exact ih (execOp cfg db op) (execOp_preserves cfg db op hinv)

/-- C1 witness: running the concrete operation sequence from the empty state
preserves the invariant. -/
theorem single_session_invariant_preserved_witness :
    singleSessionInv (execOps cfgW emptyDB opsW) :=
  single_session_invariant_preserved cfgW emptyDB opsW (fun _ => Nat.zero_le 1)

lemma getByRefreshToken_ok {db : DB} {ts : TokenStr} {now : Nat} {sess : SessionRow}
    (h : PostgresSessionRepository.GetByRefreshToken db ts now = .ok sess) :
    sess ∈ db.sessions ∧ sess.refreshToken = ts ∧ now < sess.expiresAt := by
  simp only [PostgresSessionRepository.GetByRefreshToken] at h
  cases hf : db.sessions.find?
      (fun s => s.refreshToken == ts && decide (now < s.expiresAt)) with
  | none => rw [hf] at h; simp at h
  | some s =>
    rw [hf] at h
    simp only [Except.ok.injEq] at h
    subst h
    have hp := List.find?_some hf
    simp only [Bool.and_eq_true, beq_iff_eq, decide_eq_true_eq] at hp
    exact ⟨List.mem_of_find?_eq_some hf, hp.1, hp.2⟩

lemma getByID_ok {db : DB} {uid : Nat} {user : UserRow}
    (h : PostgresUserRepository.GetByID db uid = .ok user) :
    user ∈ db.users ∧ user.userId = uid
    ∧ db.users.find? (fun u => u.userId == user.userId) = some user := by
  simp only [PostgresUserRepository.GetByID] at h
  cases hf : db.users.find? (fun u => u.userId == uid) with
  | none => rw [hf] at h; simp at h
  | some u =>
    rw [hf] at h
    simp only [Except.ok.injEq] at h
    subst h
    have hp := List.find?_some hf
    simp only [beq_iff_eq] at hp
    refine ⟨List.mem_of_find?_eq_some hf, hp, ?_⟩
    rw [hp]
    exact hf

lemma refresh_ready_eq {cfg : JWTConfig} {db : DB} {t : Token} {sess : SessionRow}
    {user : UserRow} {now : Nat} (h : RefreshReady cfg db t sess user now)
    (metadata : SessionMetadata) (rOk : Bool) :
    AuthService.RefreshToken cfg db (.wellFormed t) metadata now rOk
      = AuthService.generateAndStoreTokensWithSession cfg
          (revokeBranch db sess.sessionId now rOk) user metadata now := by
  obtain ⟨halg, hsig, htype, hiss, hexp, hnbf, hget, hvalid, huser, hact, -, -⟩ := h
  have hnexp : ¬ t.exp ≤ now := by omega
  have hnnbf : ¬ now < t.nbf := by omega
  simp [AuthService.RefreshToken, JWTService.ValidateRefreshToken,
    JWTService.validateToken, jwtParse, halg, hsig, htype, hiss, hnexp, hnnbf,
    hget, hvalid, huser, hact]

lemma refresh_ready_fst {cfg : JWTConfig} {db : DB} {t : Token} {sess : SessionRow}
    {user : UserRow} {now : Nat} (h : RefreshReady cfg db t sess user now)
    (metadata : SessionMetadata) (rOk : Bool) :
    (AuthService.RefreshToken cfg db (.wellFormed t) metadata now rOk).1
      = .ok ⟨(JWTService.GenerateTokenPair cfg user now db.nextJti).1.accessToken,
             .wellFormed (mintedRefresh cfg user now db.nextJti)⟩ := by
  rw [refresh_ready_eq h metadata rOk, generateAndStore_eq]
  rw [(revokeBranch_state db sess.sessionId now rOk).2.2.2]

lemma refresh_ready_no_old_token {cfg : JWTConfig} {db : DB} {t : Token}
    {sess : SessionRow} {user : UserRow} {now : Nat}
    (h : RefreshReady cfg db t sess user now) (metadata : SessionMetadata) (rOk : Bool) :
    ∀ x ∈ (AuthService.RefreshToken cfg db (.wellFormed t) metadata now rOk).2.sessions,
      x.refreshToken ≠ .wellFormed t := by
  intro x hx hxt
  rw [refresh_ready_eq h metadata rOk, generateAndStore_eq] at hx
  simp only [List.mem_append, List.mem_filter, List.mem_singleton] at hx
  rcases hx with ⟨hmem, hne⟩ | rfl
  · obtain ⟨s₀, hs₀, htok, huid⟩ :=
      revokeBranch_sessions_shape db sess.sessionId now rOk x hmem
    have hsu : s₀.userId = user.userId := h.howner s₀ hs₀ (by rw [← htok, hxt])
    rw [bne_iff_ne] at hne
    exact hne (huid.trans hsu)
  · have hmint : mintedRefresh cfg user now
        (revokeBranch db sess.sessionId now rOk).nextJti = t := by
      simpa only [mintedRow, TokenStr.wellFormed.injEq] using hxt
    have hjti : t.jti = (revokeBranch db sess.sessionId now rOk).nextJti + 1 := by
      rw [← hmint]; rfl
    obtain ⟨hmem, hteq, -⟩ := getByRefreshToken_ok h.hget
    have hf := h.hfresh sess hmem
    rw [hteq] at hf
    simp only [jtiFresh, decide_eq_true_eq] at hf
    rw [(revokeBranch_state db sess.sessionId now rOk).2.2.2] at hjti
    omega

lemma refresh_ready_old_fails {cfg : JWTConfig} {db : DB} {t : Token}
    {sess : SessionRow} {user : UserRow} {now : Nat}
    (h : RefreshReady cfg db t sess user now) (metadata : SessionMetadata) (rOk : Bool)
    (now₂ : Nat) (hexp₂ : now₂ < t.exp) (hnbf₂ : t.nbf ≤ now₂)
    (metadata₂ : SessionMetadata) (rOk₂ : Bool) :
    AuthService.RefreshToken cfg
        (AuthService.RefreshToken cfg db (.wellFormed t) metadata now rOk).2
        (.wellFormed t) metadata₂ now₂ rOk₂
      = (.error (AppError.tokenInvalid.withDetails
          [("reason", "session not found or revoked")]),
         (AuthService.RefreshToken cfg db (.wellFormed t) metadata now rOk).2) := by
  have hno := refresh_ready_no_old_token h metadata rOk
  set db' := (AuthService.RefreshToken cfg db (.wellFormed t) metadata now rOk).2
    with hdb'
  have hfind : (db'.sessions.find?
      (fun s => s.refreshToken == .wellFormed t && decide (now₂ < s.expiresAt))) = none := by
    rw [List.find?_eq_none]
    intro x hx
    simp [Bool.and_eq_true, beq_iff_eq, hno x hx]
  have hget₂ : PostgresSessionRepository.GetByRefreshToken db'
      (.wellFormed t) now₂ = .error (AppError.notFound "session") := by
    simp only [PostgresSessionRepository.GetByRefreshToken, hfind]
  have hnexp : ¬ t.exp ≤ now₂ := by omega
  have hnnbf : ¬ now₂ < t.nbf := by omega
  simp [AuthService.RefreshToken, JWTService.ValidateRefreshToken,
    JWTService.validateToken, jwtParse, h.halg, h.hsig, h.htype, h.hiss,
    hnexp, hnnbf, hget₂]

lemma jtiFresh_mono {b₁ b₂ : Nat} (h : b₁ ≤ b₂) (ts : TokenStr)
    (hf : jtiFresh b₁ ts = true) : jtiFresh b₂ ts = true := by
  cases ts with
  | wellFormed t =>
    simp only [jtiFresh, decide_eq_true_eq] at hf ⊢
    omega
  | malformed r => rfl

lemma refresh_ready_transfer {cfg : JWTConfig} {db : DB} {t : Token}
    {sess : SessionRow} {user : UserRow} {now : Nat}
    (h : RefreshReady cfg db t sess user now) (metadata : SessionMetadata) (rOk : Bool)
    (now₂ : Nat) (hrexp₂ : now₂ < now + cfg.refreshTokenExpiry) (hnow₂ : now ≤ now₂) :
    RefreshReady cfg (AuthService.RefreshToken cfg db (.wellFormed t) metadata now rOk).2
      (mintedRefresh cfg user now db.nextJti)
      (mintedRow cfg user metadata now db.nextJti db.nextSessionId)
      user now₂ := by
  have hstate := revokeBranch_state db sess.sessionId now rOk
  have hshape := revokeBranch_sessions_shape db sess.sessionId now rOk
  have hses : (AuthService.RefreshToken cfg db (.wellFormed t) metadata now rOk).2.sessions
      = (revokeBranch db sess.sessionId now rOk).sessions.filter
          (fun s => s.userId != user.userId)
        ++ [mintedRow cfg user metadata now db.nextJti db.nextSessionId] := by
    rw [refresh_ready_eq h metadata rOk, generateAndStore_eq]
    rw [hstate.2.2.1, hstate.2.2.2]
  have husers : (AuthService.RefreshToken cfg db (.wellFormed t) metadata now rOk).2.users
      = db.users := by
    rw [refresh_ready_eq h metadata rOk, generateAndStore_eq]
    exact hstate.1
  have hjti2 : (AuthService.RefreshToken cfg db (.wellFormed t) metadata now rOk).2.nextJti
      = db.nextJti + 2 := by
    rw [refresh_ready_eq h metadata rOk, generateAndStore_eq]
    show (revokeBranch db sess.sessionId now rOk).nextJti + 2 = db.nextJti + 2
    rw [hstate.2.2.2]
  have hnone : ((revokeBranch db sess.sessionId now rOk).sessions.filter
      (fun s => s.userId != user.userId)).find?
      (fun s => s.refreshToken == .wellFormed (mintedRefresh cfg user now db.nextJti)
        && decide (now₂ < s.expiresAt)) = none := by
    rw [List.find?_eq_none]
    intro x hx
    obtain ⟨s₀, hs₀, htok, -⟩ := hshape x (List.mem_filter.mp hx).1
    have hfr := h.hfresh s₀ hs₀
    rw [← htok] at hfr
    cases hxtok : x.refreshToken with
    | malformed r => simp [hxtok]
    | wellFormed tk =>
      rw [hxtok] at hfr
      simp only [jtiFresh, decide_eq_true_eq] at hfr
      simp only [hxtok, Bool.and_eq_true, beq_iff_eq, TokenStr.wellFormed.injEq,
        decide_eq_true_eq, not_and]
      intro hteq
      exfalso
      have htk : tk.jti = db.nextJti + 1 := by rw [hteq]; rfl
      omega
  have hprow : ((mintedRow cfg user metadata now db.nextJti db.nextSessionId).refreshToken
      == .wellFormed (mintedRefresh cfg user now db.nextJti)
      && decide (now₂ <
        (mintedRow cfg user metadata now db.nextJti db.nextSessionId).expiresAt)) = true := by
    simp [mintedRow, hrexp₂]
  have hget₂ : PostgresSessionRepository.GetByRefreshToken
      (AuthService.RefreshToken cfg db (.wellFormed t) metadata now rOk).2
      (.wellFormed (mintedRefresh cfg user now db.nextJti)) now₂
      = .ok (mintedRow cfg user metadata now db.nextJti db.nextSessionId) := by
    have hfind1 : List.find?
        (fun s => s.refreshToken == .wellFormed (mintedRefresh cfg user now db.nextJti)
          && decide (now₂ < s.expiresAt))
        [mintedRow cfg user metadata now db.nextJti db.nextSessionId]
        = some (mintedRow cfg user metadata now db.nextJti db.nextSessionId) := by
      simp [List.find?, hprow]
    simp only [PostgresSessionRepository.GetByRefreshToken, hses, List.find?_append,
      hnone, Option.none_or, hfind1]
  have hval₂ : (mintedRow cfg user metadata now db.nextJti db.nextSessionId).isValid now₂
      = true := by
    simp only [mintedRow, SessionRow.isValid, SessionRow.isExpired, Bool.not_false,
      Bool.and_true, Bool.not_eq_true', decide_eq_false_iff_not]
    omega
  have huser₂ : PostgresUserRepository.GetByID
      (AuthService.RefreshToken cfg db (.wellFormed t) metadata now rOk).2
      (mintedRefresh cfg user now db.nextJti).userId = .ok user := by
    simp only [PostgresUserRepository.GetByID, husers, mintedRefresh]
    rw [(getByID_ok h.huser).2.2]
  have howner₂ : ∀ x ∈ (AuthService.RefreshToken cfg db (.wellFormed t)
        metadata now rOk).2.sessions,
      x.refreshToken = .wellFormed (mintedRefresh cfg user now db.nextJti) →
      x.userId = user.userId := by
    intro x hx hxt
    rw [hses] at hx
    rcases List.mem_append.mp hx with hxl | hxr
    · obtain ⟨s₀, hs₀, htok, -⟩ := hshape x (List.mem_filter.mp hxl).1
      have hfr := h.hfresh s₀ hs₀
      rw [← htok, hxt] at hfr
      simp only [jtiFresh, decide_eq_true_eq] at hfr
      exfalso
      have hm : (mintedRefresh cfg user now db.nextJti).jti = db.nextJti + 1 := rfl
      omega
    · rw [List.mem_singleton] at hxr
      subst hxr
      rfl
  have hfresh₂ : ∀ x ∈ (AuthService.RefreshToken cfg db (.wellFormed t)
        metadata now rOk).2.sessions,
      jtiFresh (AuthService.RefreshToken cfg db (.wellFormed t)
        metadata now rOk).2.nextJti x.refreshToken = true := by
    intro x hx
    rw [hjti2]
    rw [hses] at hx
    rcases List.mem_append.mp hx with hxl | hxr
    · obtain ⟨s₀, hs₀, htok, -⟩ := hshape x (List.mem_filter.mp hxl).1
      have hfr := h.hfresh s₀ hs₀
      rw [← htok] at hfr
      exact jtiFresh_mono (by omega) _ hfr
    · rw [List.mem_singleton] at hxr
      subst hxr
      simp only [mintedRow, jtiFresh, mintedRefresh, decide_eq_true_eq]
      omega
  exact ⟨rfl, rfl, rfl, rfl, hrexp₂, hnow₂, hget₂, hval₂, huser₂, h.hact,
    howner₂, hfresh₂⟩

/-- C2: rotation.  Under the conditions that make a RefreshToken call with
token R succeed (bundled in `RefreshReady`, including the UNIQUE-constraint
and JTI-freshness state invariants), the call succeeds; presenting R again
afterwards — while R itself is still signature-valid and unexpired — fails
with the TokenInvalid kind; and the newly issued refresh token succeeds
exactly once: its first use (within its validity window) succeeds, after
which presenting it again fails with TokenInvalid. -/
theorem refresh_rotation
    (cfg : JWTConfig) (db : DB) (t : Token) (sess : SessionRow) (user : UserRow)
    (metadata metadata₂ metadata₃ : SessionMetadata) (now now₂ now₃ : Nat)
    (rOk rOk₂ rOk₃ : Bool)
    (h : RefreshReady cfg db t sess user now)
    (hexp₂ : now₂ < t.exp) (hnbf₂ : t.nbf ≤ now₂)
    (hrexp₂ : now₂ < now + cfg.refreshTokenExpiry) (hnow₂ : now ≤ now₂)
    (hrexp₃ : now₃ < now + cfg.refreshTokenExpiry) (hnow₃ : now ≤ now₃) :
    errCodeOf (AuthService.RefreshToken cfg db (.wellFormed t) metadata now rOk).1 = none
    ∧ errCodeOf (AuthService.RefreshToken cfg
        (AuthService.RefreshToken cfg db (.wellFormed t) metadata now rOk).2
        (.wellFormed t) metadata₂ now₂ rOk₂).1 = some .tokenInvalid
    ∧ (∀ pair,
        (AuthService.RefreshToken cfg db (.wellFormed t) metadata now rOk).1 = .ok pair →
        errCodeOf (AuthService.RefreshToken cfg
            (AuthService.RefreshToken cfg db (.wellFormed t) metadata now rOk).2
            pair.refreshToken metadata₂ now₂ rOk₂).1 = none
        ∧ errCodeOf (AuthService.RefreshToken cfg
            (AuthService.RefreshToken cfg
              (AuthService.RefreshToken cfg db (.wellFormed t) metadata now rOk).2
              pair.refreshToken metadata₂ now₂ rOk₂).2
            pair.refreshToken metadata₃ now₃ rOk₃).1 = some .tokenInvalid) := by
  refine ⟨?_, ?_, ?_⟩
  · rw [refresh_ready_fst h metadata rOk]
    rfl
  · rw [refresh_ready_old_fails h metadata rOk now₂ hexp₂ hnbf₂ metadata₂ rOk₂]
    rfl
  · intro pair hpair
    have hpair' := (refresh_ready_fst h metadata rOk).symm.trans hpair
    simp only [Except.ok.injEq] at hpair'
    have htok : pair.refreshToken
        = .wellFormed (mintedRefresh cfg user now db.nextJti) := by
      rw [← hpair']
    have h' := refresh_ready_transfer h metadata rOk now₂ hrexp₂ hnow₂
    constructor
    · rw [htok, refresh_ready_fst h' metadata₂ rOk₂]
      rfl
    · rw [htok,
        refresh_ready_old_fails h' metadata₂ rOk₂ now₃ hrexp₃ hnow₃ metadata₃ rOk₃]
      rfl

lemma refreshReadyW : RefreshReady cfgW dbW tokW sessW userW 5 := by
  refine ⟨rfl, rfl, rfl, rfl, by decide, by decide, by decide, by decide, by decide,
    rfl, by decide, by decide⟩

/-- C2 witness: on the concrete state the refresh with the stored token
succeeds at time 5, and re-presenting the same token at time 6 fails with
TokenInvalid. -/
theorem refresh_rotation_witness :
    errCodeOf (AuthService.RefreshToken cfgW dbW (.wellFormed tokW) metaW 5 true).1 = none
    ∧ errCodeOf (AuthService.RefreshToken cfgW
        (AuthService.RefreshToken cfgW dbW (.wellFormed tokW) metaW 5 true).2
        (.wellFormed tokW) metaW 6 true).1 = some .tokenInvalid :=
  ⟨(refresh_rotation cfgW dbW tokW sessW userW metaW metaW metaW 5 6 7 true true true
      refreshReadyW (by decide) (by decide) (by decide) (by decide) (by decide)
      (by decide)).1,
   (refresh_rotation cfgW dbW tokW sessW userW metaW metaW metaW 5 6 7 true true true
      refreshReadyW (by decide) (by decide) (by decide) (by decide) (by decide)
      (by decide)).2.1⟩

/-- C10: if the Revoke call on the matched old session fails inside a
RefreshToken call that would otherwise succeed, the failure is swallowed: the
call still succeeds, it returns the very same token pair the succeeding-Revoke
run returns, and the old session row is removed all the same by
ReplaceUserSession, so no surviving row carries the old token. -/
theorem refresh_swallows_revoke_failure
    (cfg : JWTConfig) (db : DB) (t : Token) (sess : SessionRow) (user : UserRow)
    (metadata : SessionMetadata) (now : Nat)
    (h : RefreshReady cfg db t sess user now) :
    errCodeOf (AuthService.RefreshToken cfg db (.wellFormed t) metadata now false).1 = none
    ∧ (AuthService.RefreshToken cfg db (.wellFormed t) metadata now false).1
        = (AuthService.RefreshToken cfg db (.wellFormed t) metadata now true).1
    ∧ (∀ x ∈ (AuthService.RefreshToken cfg db (.wellFormed t) metadata now false).2.sessions,
        x.refreshToken ≠ .wellFormed t) := by
  refine ⟨?_, ?_, refresh_ready_no_old_token h metadata false⟩
  · rw [refresh_ready_fst h metadata false]
    rfl
  · rw [refresh_ready_fst h metadata false, refresh_ready_fst h metadata true]

/-- C10 witness: on the concrete state the refresh with a failing Revoke call
succeeds and returns the same pair as the run whose Revoke call succeeds. -/
theorem refresh_swallows_revoke_failure_witness :
    errCodeOf (AuthService.RefreshToken cfgW dbW (.wellFormed tokW) metaW 5 false).1 = none
    ∧ (AuthService.RefreshToken cfgW dbW (.wellFormed tokW) metaW 5 false).1
        = (AuthService.RefreshToken cfgW dbW (.wellFormed tokW) metaW 5 true).1 :=
  ⟨(refresh_swallows_revoke_failure cfgW dbW tokW sessW userW metaW 5 refreshReadyW).1,
   (refresh_swallows_revoke_failure cfgW dbW tokW sessW userW metaW 5 refreshReadyW).2.1⟩

/-- C4 (code bug evidence): in the check-then-insert race — the pre-checks see
a state without alice but a concurrent Register commits alice before the
INSERT — the repository's unique-constraint path does report AlreadyExists,
yet the service wraps every Create failure as Internal, so the call surfaces
the Internal kind, not AlreadyExists as the spec requires. -/
theorem register_race_yields_internal :
    (AuthService.registerRaced cfgW emptyDB dbRaceW reqAliceW metaW 0).1
      = .error (AppError.internal "failed to create user")
    ∧ PostgresUserRepository.Create dbRaceW
        ⟨0, reqAliceW.username, reqAliceW.email, hashPassword reqAliceW.password,
         reqAliceW.fullName, true, 0, 0⟩ 0
      = .error (AppError.alreadyExists "username")
    ∧ ErrCode.internal ≠ ErrCode.alreadyExists :=
  ⟨by decide, by decide, by decide⟩

end Auth
